import Mathlib

/-!
The MQTT broker entry point: `LogHook` and `main`.

A shallow embedding of `main.go`: the logging hook (`LogHook`) with its
capability predicate and its five callbacks, and the lifecycle of `main`
(hook registration, listener registration, concurrent serve loop, wait for a
termination signal, close).

The broker core (`mqtt.Server`), the packet and client types, and the Go
standard library are external to the file; the parts of them the file uses are
modelled below, each next to the place it is used.
-/

namespace MqttGo

/-! ## Go library functions used by `main.go` -/

/-- A Go `byte`. -/
abbrev Byte := Fin 256

/-- A Go `string` or `[]byte`: a sequence of bytes. -/
abbrev GoString := List Byte

/-- The line feed byte. -/
def newline : Byte := 10

/-- The UTF-8 encoding of one character, as the Go compiler stores the
characters of a string literal. -/
def utf8EncodeChar (c : Char) : List Byte :=
  let v := c.toNat
  if v < 0x80 then [Fin.ofNat v]
  else if v < 0x800 then [Fin.ofNat (0xC0 + v / 64), Fin.ofNat (0x80 + v % 64)]
  else if v < 0x10000 then
    [Fin.ofNat (0xE0 + v / 4096), Fin.ofNat (0x80 + v / 64 % 64), Fin.ofNat (0x80 + v % 64)]
  else
    [Fin.ofNat (0xF0 + v / 262144), Fin.ofNat (0x80 + v / 4096 % 64),
      Fin.ofNat (0x80 + v / 64 % 64), Fin.ofNat (0x80 + v % 64)]

/-- The bytes of a string literal. -/
def lit (s : String) : GoString :=
  (s.data.map utf8EncodeChar).flatten

/-- The Go function `bytes.Contains(b, subslice)`: whether `subslice` occurs
within `b` as a contiguous run. -/
def bytesContains : List Byte → List Byte → Bool
  | [], sub => sub.isEmpty
  | x :: xs, sub => sub.isPrefixOf (x :: xs) || bytesContains xs sub

/-- The decimal digits of `n` in front of `acc`, most significant first. -/
def decimalDigits : Nat → Nat → List Byte → List Byte
  | 0, _, acc => acc
  | fuel + 1, n, acc =>
    let acc := Fin.ofNat (48 + n % 10) :: acc
    if n / 10 = 0 then acc else decimalDigits fuel (n / 10) acc

/-- The verb `%d`: an integer in decimal, with a minus sign when negative. -/
def formatDecimal (n : Int) : GoString :=
  if n < 0 then 45 :: decimalDigits (n.natAbs + 1) n.natAbs []
  else decimalDigits (n.natAbs + 1) n.natAbs []

/-- An operand of a formatting call. -/
inductive Arg where
  | str (s : GoString)
  | int (n : Int)
  deriving DecidableEq, Repr

/-- The verbs of `fmt.Sprintf` that `main.go` uses, over the characters of the
format: `%s` copies the bytes of a string operand, `%d` renders an integer
operand in decimal, every other character of the format is copied. -/
def sprintfChars : List Char → List Arg → GoString
  | '%' :: 's' :: rest, Arg.str s :: args => s ++ sprintfChars rest args
  | '%' :: 'd' :: rest, Arg.int n :: args => formatDecimal n ++ sprintfChars rest args
  | c :: rest, args => utf8EncodeChar c ++ sprintfChars rest args
  | [], _ => []

/-- The Go function `fmt.Sprintf(format, args...)`. -/
def Sprintf (format : String) (args : List Arg) : GoString :=
  sprintfChars format.data args

/-- The standard logger's sink: the bytes of each write made to it so far,
oldest first.  One call of `log.Printf`, `log.Println` or `log.Fatal` makes one
write.  The time stamp the logger puts in front of each write depends on the
wall clock and is left out; it holds no line feed. -/
abbrev Sink := List GoString

/-- The Go method `Logger.Output`: the text is written with a line feed appended
unless it already ends in one. -/
def logOutput (sink : Sink) (s : GoString) : Sink :=
  sink ++ [if s.getLast? = some newline then s else s ++ [newline]]

/-- The Go function `log.Printf(format, args...)`. -/
def logPrintf (sink : Sink) (format : String) (args : List Arg) : Sink :=
  logOutput sink (Sprintf format args)

/-- The Go function `log.Println(s)` for one string operand. -/
def logPrintln (sink : Sink) (s : GoString) : Sink :=
  logOutput sink (s ++ [newline])

/-- The lines of a text: the runs of bytes between line feeds, without the line
feeds; bytes after the last line feed, when there are any, are a line too. -/
def lines : GoString → List GoString
  | [] => []
  | c :: cs =>
    if c = newline then [] :: lines cs
    else
      match lines cs with
      | [] => [[c]]
      | l :: ls => (c :: l) :: ls

/-- The text added to the sink between two of its states: the writes made after
the first `before.length`, one after the other. -/
def written (before after : Sink) : GoString :=
  (after.drop before.length).flatten

/-! ## The broker library's types, as far as `main.go` reads them -/

/-- The event-kind constants of the broker library (`mqtt.OnConnect`, ...).
Their numeric values are fixed by the library, not by `main.go`. -/
structure HookKinds where
  OnConnectAuthenticate : Byte
  OnACLCheck : Byte
  OnConnect : Byte
  OnDisconnect : Byte
  OnSubscribed : Byte
  OnUnsubscribed : Byte
  OnPublished : Byte
  deriving DecidableEq, Repr

/-- An assignment of pairwise distinct codes to the event kinds, in the order
the library enumerates them. -/
def sampleKinds : HookKinds where
  OnConnectAuthenticate := 4
  OnACLCheck := 5
  OnConnect := 6
  OnDisconnect := 9
  OnSubscribed := 16
  OnUnsubscribed := 19
  OnPublished := 21

/-- The field `Client.Net`. -/
structure ClientConnection where
  Remote : GoString
  deriving DecidableEq, Repr

/-- The type `mqtt.Client`. -/
structure Client where
  ID : GoString
  Net : ClientConnection
  deriving DecidableEq, Repr

/-- The type `packets.Subscription`. -/
structure Subscription where
  Filter : GoString
  Qos : Byte
  deriving DecidableEq, Repr

/-- The type `packets.FixedHeader`. -/
structure FixedHeader where
  Qos : Byte
  deriving DecidableEq, Repr

/-- The type `packets.Packet`. -/
structure Packet where
  FixedHeader : FixedHeader
  TopicName : GoString
  Payload : List Byte
  Filters : List Subscription
  deriving DecidableEq, Repr

/-- A Go `error` value, by its message. -/
abbrev GoError := GoString

/-! ## `LogHook` -/

namespace LogHook

/-- The method `LogHook.ID`. -/
def ID : GoString := lit "log-hook"

/-- The method `LogHook.Provides`. -/
def Provides (k : HookKinds) (b : Byte) : Bool :=
  bytesContains
    [k.OnConnect, k.OnDisconnect, k.OnSubscribed, k.OnUnsubscribed, k.OnPublished]
    [b]

/-- The method `LogHook.OnConnect`: the sink after the call and the returned error. -/
def OnConnect (sink : Sink) (cl : Client) (_pk : Packet) : Sink × Option GoError :=
  let sink := logPrintf sink "[CONNECT] Client: %s connected from %s\n"
    [Arg.str cl.ID, Arg.str cl.Net.Remote]
  (sink, none)

/-- The method `LogHook.OnDisconnect`. -/
def OnDisconnect (sink : Sink) (cl : Client) (_err : Option GoError) (_expire : Bool) : Sink :=
  logPrintf sink "[DISCONNECT] Client: %s disconnected\n" [Arg.str cl.ID]

/-- The method `LogHook.OnSubscribed`. -/
def OnSubscribed (sink : Sink) (cl : Client) (pk : Packet) (_reasonCodes : List Byte) : Sink :=
  let sink := logPrintf sink "[SUBSCRIBE] Client: %s subscribed to topics\n" [Arg.str cl.ID]
  pk.Filters.foldl
    (fun sink sub =>
      logPrintf sink "  - Topic: %s (QoS: %d)\n" [Arg.str sub.Filter, Arg.int sub.Qos.val])
    sink

/-- The method `LogHook.OnUnsubscribed`. -/
def OnUnsubscribed (sink : Sink) (cl : Client) (pk : Packet) : Sink :=
  let sink := logPrintf sink "[UNSUBSCRIBE] Client: %s unsubscribed from topics\n" [Arg.str cl.ID]
  pk.Filters.foldl
    (fun sink filter => logPrintf sink "  - Topic: %s\n" [Arg.str filter.Filter])
    sink

/-- The method `LogHook.OnPublished`.  The conversion `string(pk.Payload)` keeps
the bytes of the payload. -/
def OnPublished (sink : Sink) (cl : Client) (pk : Packet) : Sink :=
  logPrintf sink "[PUBLISH] Client: %s | Topic: %s | Payload: %s | QoS: %d\n"
    [Arg.str cl.ID, Arg.str pk.TopicName, Arg.str pk.Payload,
     Arg.int pk.FixedHeader.Qos.val]

end LogHook

/-! ## `main` over an abstract broker core

`main` talks to the broker core through `AddHook`, `AddListener`, `Serve` and
`Close`, and to the operating system through signals.  What the core answers,
when the goroutine and `main` are scheduled, and which signal is delivered when
are not decided by `main`; they are the events of the model.  A step of the model
runs `main` (or the goroutine) from one such interaction to the next. -/

/-- The two hooks `main` registers: `new(auth.AllowHook)` and `new(LogHook)`. -/
inductive Hook where
  | AllowHook
  | LogHook
  deriving DecidableEq, Repr

/-- The type `listeners.Config`, with the fields `main` sets. -/
structure ListenerConfig where
  ID : GoString
  Address : GoString
  deriving DecidableEq, Repr

/-- A call made on the broker core. -/
inductive CoreCall where
  | AddHook (hook : Hook)
  | AddListener (config : ListenerConfig)
  | Serve
  | Close
  deriving DecidableEq, Repr

/-- The signals the operating system may deliver to the process: the two `main`
subscribes to, and signals it does not subscribe to, each of which ends a Go
process that has not asked for it. -/
inductive Signal where
  | Interrupt
  | SIGTERM
  | SIGHUP
  | SIGQUIT
  | SIGKILL
  deriving DecidableEq, Repr

/-- What the surroundings of `main` do. -/
inductive Event where
  /-- The pending `server.AddHook` call returns `err`. -/
  | addHookReturns (err : Option GoError)
  /-- The pending `server.AddListener` call returns `err`. -/
  | addListenerReturns (err : Option GoError)
  /-- After the `go` statement `main` is scheduled again: it makes `sigChan`, runs
  `signal.Notify` and blocks in `<-sigChan`. -/
  | notifyInstalled
  /-- The goroutine is scheduled and calls `server.Serve`. -/
  | serveStarts
  /-- The goroutine's `server.Serve` call returns `err`. -/
  | serveReturns (err : Option GoError)
  /-- The operating system delivers the signal `sig` to the process. -/
  | signal (sig : Signal)
  /-- The pending `server.Close` call returns. -/
  | closeReturns
  deriving DecidableEq, Repr

/-- Where the body of `main` stands. -/
inductive MainPc where
  /-- About to run `_ = server.AddHook(new(auth.AllowHook), nil)`. -/
  | addHookAllow
  /-- About to run `_ = server.AddHook(new(LogHook), nil)`. -/
  | addHookLog
  /-- About to run `err := server.AddListener(tcp)`. -/
  | addListener
  /-- Past the `go` statement, about to run `signal.Notify`. -/
  | installNotify
  /-- Blocked in `<-sigChan`. -/
  | waitSignal
  /-- Inside `server.Close()`. -/
  | inClose
  /-- Returned from `main`. -/
  | returned
  deriving DecidableEq, Repr

/-- Where the goroutine `go func() { err := server.Serve(); ... }()` stands. -/
inductive RoutinePc where
  /-- The `go` statement has not run. -/
  | notSpawned
  /-- Spawned, `server.Serve` not yet called. -/
  | spawned
  /-- Inside `server.Serve()`. -/
  | inServe
  /-- `server.Serve` returned nil and the goroutine ended. -/
  | finished
  deriving DecidableEq, Repr

/-- The state of the process running `main`. -/
structure State where
  /-- The position of `main`. -/
  pc : MainPc
  /-- The position of the goroutine. -/
  routine : RoutinePc
  /-- The calls made on the broker core so far, oldest first. -/
  calls : List CoreCall
  /-- The writes made to the log so far. -/
  sink : Sink
  /-- The signal received from `sigChan`, once there is one. -/
  received : Option Signal
  /-- The exit code, once the process has exited. -/
  exitCode : Option Nat
  /-- The signal that ended the process, when one did. -/
  killedBy : Option Signal
  deriving DecidableEq, Repr

/-- The lifecycle states of the orchestrator. -/
inductive Lifecycle where
  | Initializing
  | Serving
  | ShuttingDown
  | Stopped
  deriving DecidableEq, Repr

namespace main

/-- The value `listeners.Config{ID: "t1", Address: ":1883"}`. -/
def tcpConfig : ListenerConfig := { ID := lit "t1", Address := lit ":1883" }

/-- The signals of `signal.Notify(sigChan, os.Interrupt, syscall.SIGTERM)`. -/
def subscribed : Signal → Bool
  | Signal.Interrupt => true
  | Signal.SIGTERM => true
  | _ => false

/-- The process has ended: it has exited or a signal has ended it. -/
def ended (s : State) : Bool :=
  s.exitCode.isSome || s.killedBy.isSome

/-- The Go function `log.Fatal(err)`: the error is logged and the process exits
with code 1. -/
def logFatal (s : State) (err : GoError) : State :=
  { s with sink := logOutput s.sink err, exitCode := some 1 }

/-- The state on entry to `main`. -/
def init : State :=
  { pc := MainPc.addHookAllow, routine := RoutinePc.notSpawned, calls := [], sink := [],
    received := none, exitCode := none, killedBy := none }

/-- One step of the body of `main`.  The result of either `AddHook` call is
assigned to `_`.  After a successful `AddListener`, `main` logs the start line
and spawns the goroutine; it then installs the signal channel and blocks on it.
When `Close` returns `main` returns and the process ends with code 0. -/
def stepMain (s : State) : Event → Option State
  | Event.addHookReturns _err =>
    match s.pc with
    | MainPc.addHookAllow =>
      some { s with pc := MainPc.addHookLog, calls := s.calls ++ [CoreCall.AddHook Hook.AllowHook] }
    | MainPc.addHookLog =>
      some { s with pc := MainPc.addListener, calls := s.calls ++ [CoreCall.AddHook Hook.LogHook] }
    | _ => none
  | Event.addListenerReturns err =>
    match s.pc with
    | MainPc.addListener =>
      let s := { s with calls := s.calls ++ [CoreCall.AddListener tcpConfig] }
      match err with
      | some e => some (logFatal s e)
      | none =>
        some { s with
          sink := logPrintln s.sink (lit "MQTT server started on :1883"),
          routine := RoutinePc.spawned,
          pc := MainPc.installNotify }
    | _ => none
  | Event.notifyInstalled =>
    match s.pc with
    | MainPc.installNotify => some { s with pc := MainPc.waitSignal }
    | _ => none
  | Event.closeReturns =>
    match s.pc with
    | MainPc.inClose => some { s with pc := MainPc.returned, exitCode := some 0 }
    | _ => none
  | _ => none

/-- The delivery of a signal.  A signal `main` has subscribed to, once
`signal.Notify` has run, is sent to `sigChan`: when `main` is blocked on the
channel it receives the signal, logs the shutdown line and calls `Close`; later
ones stay in the channel unread.  Any other signal, and a subscribed one that
comes before `signal.Notify` has run, ends the process. -/
def stepSignal (s : State) (sig : Signal) : Option State :=
  match s.pc with
  | MainPc.waitSignal =>
    if subscribed sig then
      some { s with
        received := some sig,
        sink := logPrintln s.sink (lit "Shutting down server..."),
        calls := s.calls ++ [CoreCall.Close],
        pc := MainPc.inClose }
    else some { s with killedBy := some sig }
  | MainPc.inClose =>
    if subscribed sig then some s else some { s with killedBy := some sig }
  | _ => some { s with killedBy := some sig }

/-- One step of the goroutine: it calls `Serve`, and when `Serve` returns an
error it calls `log.Fatal`. -/
def stepRoutine (s : State) : Event → Option State
  | Event.serveStarts =>
    match s.routine with
    | RoutinePc.spawned =>
      some { s with routine := RoutinePc.inServe, calls := s.calls ++ [CoreCall.Serve] }
    | _ => none
  | Event.serveReturns err =>
    match s.routine with
    | RoutinePc.inServe =>
      match err with
      | some e => some (logFatal s e)
      | none => some { s with routine := RoutinePc.finished }
    | _ => none
  | _ => none

/-- One step of the process: nothing runs once the process has ended; otherwise
the event is a signal, or is taken by `main` or by the goroutine. -/
def step (s : State) (ev : Event) : Option State :=
  if ended s then none
  else
    match ev with
    | Event.serveStarts => stepRoutine s ev
    | Event.serveReturns _ => stepRoutine s ev
    | Event.signal sig => stepSignal s sig
    | _ => stepMain s ev

/-- The state after a sequence of events, when each of them can happen in turn. -/
def run (s : State) : List Event → Option State
  | [] => some s
  | ev :: evs => (step s ev).bind (fun s' => run s' evs)

/-- The lifecycle state a process state stands for: `Serving` from the `go`
statement on, `ShuttingDown` inside `Close`, `Stopped` once the process has
ended. -/
def lifecycle (s : State) : Lifecycle :=
  if ended s then Lifecycle.Stopped
  else
    match s.pc with
    | MainPc.addHookAllow => Lifecycle.Initializing
    | MainPc.addHookLog => Lifecycle.Initializing
    | MainPc.addListener => Lifecycle.Initializing
    | MainPc.installNotify => Lifecycle.Serving
    | MainPc.waitSignal => Lifecycle.Serving
    | MainPc.inClose => Lifecycle.ShuttingDown
    | MainPc.returned => Lifecycle.Stopped

/-- The three registration calls of `main`, in program order. -/
def registrations : List CoreCall :=
  [CoreCall.AddHook Hook.AllowHook, CoreCall.AddHook Hook.LogHook, CoreCall.AddListener tcpConfig]

/-- The body of `main` is past its registration calls and the `go` statement. -/
def pastRegistration (s : State) : Prop :=
  s.pc = MainPc.installNotify ∨ s.pc = MainPc.waitSignal ∨ s.pc = MainPc.inClose
    ∨ s.pc = MainPc.returned

/-- Shutdown has begun: `main` is inside `Close` or past it, or `Close` is among
the calls made. -/
def closing (s : State) : Prop :=
  s.pc = MainPc.inClose ∨ s.pc = MainPc.returned ∨ CoreCall.Close ∈ s.calls

/-- The `Serve` call of the goroutine, once it has made it. -/
def serveCalls : RoutinePc → List CoreCall
  | RoutinePc.notSpawned => []
  | RoutinePc.spawned => []
  | RoutinePc.inServe => [CoreCall.Serve]
  | RoutinePc.finished => [CoreCall.Serve]

/-- The calls made so far, as the positions of `main` and of the goroutine
determine them. -/
def Shape (s : State) : Prop :=
  match s.pc with
  | MainPc.addHookAllow =>
    s.calls = [] ∧ s.routine = RoutinePc.notSpawned ∧ s.exitCode = none
  | MainPc.addHookLog =>
    s.calls = registrations.take 1 ∧ s.routine = RoutinePc.notSpawned ∧ s.exitCode = none
  | MainPc.addListener =>
    s.routine = RoutinePc.notSpawned
    ∧ ((s.calls = registrations.take 2 ∧ s.exitCode = none)
      ∨ (s.calls = registrations ∧ s.exitCode = some 1))
  | MainPc.installNotify =>
    s.routine ≠ RoutinePc.notSpawned ∧ s.calls = registrations ++ serveCalls s.routine
  | MainPc.waitSignal =>
    s.routine ≠ RoutinePc.notSpawned ∧ s.calls = registrations ++ serveCalls s.routine
  | _ =>
    s.routine ≠ RoutinePc.notSpawned
    ∧ (s.calls = registrations ++ serveCalls s.routine ++ [CoreCall.Close]
      ∨ (s.calls = registrations ++ [CoreCall.Close, CoreCall.Serve]
        ∧ s.routine ≠ RoutinePc.spawned))

/-! ### Sample runs -/

/-- The events of a run in which the listener cannot be bound. -/
def bindErrorRun : List Event :=
  [Event.addHookReturns none, Event.addHookReturns none,
    Event.addListenerReturns (some (lit "listen tcp :1883: bind: address already in use"))]

/-- The state at the end of `bindErrorRun`. -/
def bindErrorState : State :=
  { pc := MainPc.addListener, routine := RoutinePc.notSpawned, calls := registrations,
    sink := [lit "listen tcp :1883: bind: address already in use\n"],
    received := none, exitCode := some 1, killedBy := none }

/-- The events of a run up to the receipt of SIGTERM. -/
def sigtermRun : List Event :=
  [Event.addHookReturns none, Event.addHookReturns none, Event.addListenerReturns none,
    Event.notifyInstalled, Event.signal Signal.SIGTERM]

/-- The state at the end of `sigtermRun`. -/
def sigtermState : State :=
  { pc := MainPc.inClose, routine := RoutinePc.spawned,
    calls := registrations ++ [CoreCall.Close],
    sink := [lit "MQTT server started on :1883\n", lit "Shutting down server...\n"],
    received := some Signal.SIGTERM, exitCode := none, killedBy := none }

/-- The state in which `main` waits for a signal and the goroutine is inside
`Serve`. -/
def servingState : State :=
  { pc := MainPc.waitSignal, routine := RoutinePc.inServe,
    calls := registrations ++ [CoreCall.Serve],
    sink := [lit "MQTT server started on :1883\n"], received := none, exitCode := none,
    killedBy := none }

/-- The state after `Serve` has returned an error in `servingState`. -/
def serveFailedState : State :=
  { servingState with
    sink := [lit "MQTT server started on :1883\n",
      lit "accept tcp: use of closed network connection\n"],
    exitCode := some 1 }

/-- The state after SIGHUP has been delivered in `servingState`. -/
def hangupState : State :=
  { servingState with killedBy := some Signal.SIGHUP }

/-- The events of a complete run: registration, `Serve`, an interrupt, `Close`. -/
def completeRun : List Event :=
  [Event.addHookReturns none, Event.addHookReturns none, Event.addListenerReturns none,
    Event.notifyInstalled, Event.serveStarts, Event.signal Signal.Interrupt,
    Event.closeReturns]

/-- The state at the end of `completeRun`. -/
def completeState : State :=
  { pc := MainPc.returned, routine := RoutinePc.inServe,
    calls := [CoreCall.AddHook Hook.AllowHook, CoreCall.AddHook Hook.LogHook,
      CoreCall.AddListener { ID := lit "t1", Address := lit ":1883" }, CoreCall.Serve,
      CoreCall.Close],
    sink := [lit "MQTT server started on :1883\n", lit "Shutting down server...\n"],
    received := some Signal.Interrupt, exitCode := some 0, killedBy := none }

end main

/-! ## Formatting lemmas -/

theorem bytesContains_singleton (s : List Byte) (b : Byte) :
    bytesContains s [b] = true ↔ b ∈ s := by
  induction s with
  | nil => simp [bytesContains]
  | cons x xs ih =>
    simp only [bytesContains, Bool.or_eq_true, ih, List.mem_cons]
    simp [List.isPrefixOf]

theorem logOutput_newline (sink : Sink) (s : GoString) :
    logOutput sink (s ++ [newline]) = sink ++ [s ++ [newline]] := by
  simp [logOutput]

theorem lit_newline : lit "\n" = [newline] := by
  decide

theorem decimalDigits_no_newline (fuel n : Nat) (acc : List Byte)
    (h : newline ∉ acc) : newline ∉ decimalDigits fuel n acc := by
  induction fuel generalizing n acc with
  | zero => simpa [decimalDigits] using h
  | succ fuel ih =>
    have hd : newline ∉ (Fin.ofNat (48 + n % 10) : Byte) :: acc := by
      intro hmem
      rcases List.mem_cons.mp hmem with hmem | hmem
      · have hv := congrArg Fin.val hmem
        simp [newline, Fin.ofNat] at hv
        omega
      · exact h hmem
    simp only [decimalDigits]
    split
    · exact hd
    · exact ih _ _ hd

theorem formatDecimal_no_newline (n : Nat) : newline ∉ formatDecimal (n : Int) := by
  have h : ¬ ((n : Int) < 0) := by omega
  simp only [formatDecimal, h, if_false]
  exact decimalDigits_no_newline _ _ [] (by simp)

theorem lines_line (p rest : GoString) (h : newline ∉ p) :
    lines (p ++ newline :: rest) = p :: lines rest := by
  induction p with
  | nil => simp [lines]
  | cons c p ih =>
    have hc : c ≠ newline := fun hc => h (by simp [hc])
    have hp : newline ∉ p := fun hp => h (List.mem_cons_of_mem _ hp)
    simp [lines, hc, ih hp]

/-- The lines of a sequence of writes, each one line and its line feed. -/
theorem lines_flatten_map {α : Type} (g : α → GoString) (xs : List α)
    (h : ∀ x ∈ xs, newline ∉ g x) :
    lines ((xs.map (fun x => g x ++ [newline])).flatten) = xs.map g := by
  induction xs with
  | nil => simp [lines]
  | cons x xs ih =>
    have hx : newline ∉ g x := h x (by simp)
    have hxs : ∀ y ∈ xs, newline ∉ g y := fun y hy => h y (List.mem_cons_of_mem _ hy)
    simp only [List.map_cons, List.flatten_cons, List.append_assoc, List.singleton_append]
    rw [lines_line _ _ hx, ih hxs]

theorem written_append (sink ws : Sink) : written sink (sink ++ ws) = ws.flatten := by
  simp [written]

theorem sprintf_connect (a b : GoString) :
    Sprintf "[CONNECT] Client: %s connected from %s\n" [Arg.str a, Arg.str b]
      = (lit "[CONNECT] Client: " ++ a ++ lit " connected from " ++ b) ++ [newline] := by
  simp [Sprintf, sprintfChars, lit, utf8EncodeChar, newline]
  rfl

theorem sprintf_disconnect (a : GoString) :
    Sprintf "[DISCONNECT] Client: %s disconnected\n" [Arg.str a]
      = (lit "[DISCONNECT] Client: " ++ a ++ lit " disconnected") ++ [newline] := by
  simp [Sprintf, sprintfChars, lit, utf8EncodeChar, newline]
  rfl

theorem sprintf_subscribe (a : GoString) :
    Sprintf "[SUBSCRIBE] Client: %s subscribed to topics\n" [Arg.str a]
      = (lit "[SUBSCRIBE] Client: " ++ a ++ lit " subscribed to topics") ++ [newline] := by
  simp [Sprintf, sprintfChars, lit, utf8EncodeChar, newline]
  rfl

theorem sprintf_unsubscribe (a : GoString) :
    Sprintf "[UNSUBSCRIBE] Client: %s unsubscribed from topics\n" [Arg.str a]
      = (lit "[UNSUBSCRIBE] Client: " ++ a ++ lit " unsubscribed from topics") ++ [newline] := by
  simp [Sprintf, sprintfChars, lit, utf8EncodeChar, newline]
  rfl

theorem sprintf_topic_qos (a : GoString) (q : Nat) :
    Sprintf "  - Topic: %s (QoS: %d)\n" [Arg.str a, Arg.int q]
      = (lit "  - Topic: " ++ a ++ lit " (QoS: " ++ formatDecimal q ++ lit ")")
          ++ [newline] := by
  simp [Sprintf, sprintfChars, lit, utf8EncodeChar, newline]
  rfl

theorem sprintf_topic (a : GoString) :
    Sprintf "  - Topic: %s\n" [Arg.str a] = (lit "  - Topic: " ++ a) ++ [newline] := by
  simp [Sprintf, sprintfChars, lit, utf8EncodeChar, newline]
  rfl

theorem sprintf_publish (a t p : GoString) (q : Nat) :
    Sprintf "[PUBLISH] Client: %s | Topic: %s | Payload: %s | QoS: %d\n"
        [Arg.str a, Arg.str t, Arg.str p, Arg.int q]
      = (lit "[PUBLISH] Client: " ++ a ++ lit " | Topic: " ++ t ++ lit " | Payload: " ++ p
          ++ lit " | QoS: " ++ formatDecimal q) ++ [newline] := by
  simp [Sprintf, sprintfChars, lit, utf8EncodeChar, newline]
  rfl

theorem logPrintf_connect (sink : Sink) (a b : GoString) :
    logPrintf sink "[CONNECT] Client: %s connected from %s\n" [Arg.str a, Arg.str b]
      = sink ++ [(lit "[CONNECT] Client: " ++ a ++ lit " connected from " ++ b)
          ++ [newline]] := by
  rw [logPrintf, sprintf_connect, logOutput_newline]

theorem logPrintf_disconnect (sink : Sink) (a : GoString) :
    logPrintf sink "[DISCONNECT] Client: %s disconnected\n" [Arg.str a]
      = sink ++ [(lit "[DISCONNECT] Client: " ++ a ++ lit " disconnected") ++ [newline]] := by
  rw [logPrintf, sprintf_disconnect, logOutput_newline]

theorem logPrintf_subscribe (sink : Sink) (a : GoString) :
    logPrintf sink "[SUBSCRIBE] Client: %s subscribed to topics\n" [Arg.str a]
      = sink ++ [(lit "[SUBSCRIBE] Client: " ++ a ++ lit " subscribed to topics")
          ++ [newline]] := by
  rw [logPrintf, sprintf_subscribe, logOutput_newline]

theorem logPrintf_unsubscribe (sink : Sink) (a : GoString) :
    logPrintf sink "[UNSUBSCRIBE] Client: %s unsubscribed from topics\n" [Arg.str a]
      = sink ++ [(lit "[UNSUBSCRIBE] Client: " ++ a ++ lit " unsubscribed from topics")
          ++ [newline]] := by
  rw [logPrintf, sprintf_unsubscribe, logOutput_newline]

theorem logPrintf_topic_qos (sink : Sink) (a : GoString) (q : Nat) :
    logPrintf sink "  - Topic: %s (QoS: %d)\n" [Arg.str a, Arg.int q]
      = sink ++ [(lit "  - Topic: " ++ a ++ lit " (QoS: " ++ formatDecimal q ++ lit ")")
          ++ [newline]] := by
  rw [logPrintf, sprintf_topic_qos, logOutput_newline]

theorem logPrintf_topic (sink : Sink) (a : GoString) :
    logPrintf sink "  - Topic: %s\n" [Arg.str a]
      = sink ++ [(lit "  - Topic: " ++ a) ++ [newline]] := by
  rw [logPrintf, sprintf_topic, logOutput_newline]

theorem logPrintf_publish (sink : Sink) (a t p : GoString) (q : Nat) :
    logPrintf sink "[PUBLISH] Client: %s | Topic: %s | Payload: %s | QoS: %d\n"
        [Arg.str a, Arg.str t, Arg.str p, Arg.int q]
      = sink ++ [(lit "[PUBLISH] Client: " ++ a ++ lit " | Topic: " ++ t ++ lit " | Payload: "
          ++ p ++ lit " | QoS: " ++ formatDecimal q) ++ [newline]] := by
  rw [logPrintf, sprintf_publish, logOutput_newline]

/-- A loop that makes one write per element appends the writes in order. -/
theorem foldl_log_lines {α : Type} (f : Sink → α → Sink) (g : α → GoString)
    (hf : ∀ sink a, f sink a = sink ++ [g a]) (xs : List α) (sink : Sink) :
    xs.foldl f sink = sink ++ xs.map g := by
  induction xs generalizing sink with
  | nil => simp
  | cons x xs ih => simp [List.foldl_cons, ih, hf]

/-- The writes of `OnSubscribed`: the header, then one write per filter. -/
theorem OnSubscribed_eq (sink : Sink) (cl : Client) (pk : Packet) (rc : List Byte) :
    LogHook.OnSubscribed sink cl pk rc
      = sink ++ ((lit "[SUBSCRIBE] Client: " ++ cl.ID ++ lit " subscribed to topics")
            ++ [newline])
          :: pk.Filters.map (fun sub =>
              (lit "  - Topic: " ++ sub.Filter ++ lit " (QoS: " ++ formatDecimal sub.Qos.val
                ++ lit ")") ++ [newline]) := by
  unfold LogHook.OnSubscribed
  simp only []
  rw [foldl_log_lines _ (fun sub : Subscription =>
    (lit "  - Topic: " ++ sub.Filter ++ lit " (QoS: " ++ formatDecimal sub.Qos.val ++ lit ")")
      ++ [newline])
    (fun sink sub => logPrintf_topic_qos sink sub.Filter sub.Qos.val)]
  rw [logPrintf_subscribe]
  simp

/-- The writes of `OnUnsubscribed`: the header, then one write per filter. -/
theorem OnUnsubscribed_eq (sink : Sink) (cl : Client) (pk : Packet) :
    LogHook.OnUnsubscribed sink cl pk
      = sink ++ ((lit "[UNSUBSCRIBE] Client: " ++ cl.ID ++ lit " unsubscribed from topics")
            ++ [newline])
          :: pk.Filters.map (fun sub => (lit "  - Topic: " ++ sub.Filter) ++ [newline]) := by
  unfold LogHook.OnUnsubscribed
  simp only []
  rw [foldl_log_lines _ (fun sub : Subscription => (lit "  - Topic: " ++ sub.Filter) ++ [newline])
    (fun sink sub => logPrintf_topic sink sub.Filter)]
  rw [logPrintf_unsubscribe]
  simp

theorem no_newline_append {a b : GoString} (ha : newline ∉ a) (hb : newline ∉ b) :
    newline ∉ a ++ b := by
  simp [ha, hb]

/-! ## `LogHook`: results -/

/-- C1: `LogHook.Provides(b)` is true exactly when `b` is one of the five
notification kinds `OnConnect`, `OnDisconnect`, `OnSubscribed`, `OnUnsubscribed`,
`OnPublished`, and false for every other byte; in particular it is false for the
authorization kinds `OnConnectAuthenticate` and `OnACLCheck`, whose codes differ
from those five. -/
theorem LogHook_Provides_iff (k : HookKinds) :
    (∀ b : Byte, LogHook.Provides k b = true ↔
        (b = k.OnConnect ∨ b = k.OnDisconnect ∨ b = k.OnSubscribed
          ∨ b = k.OnUnsubscribed ∨ b = k.OnPublished))
    ∧ (∀ b : Byte,
        ¬ (b = k.OnConnect ∨ b = k.OnDisconnect ∨ b = k.OnSubscribed
          ∨ b = k.OnUnsubscribed ∨ b = k.OnPublished) →
        LogHook.Provides k b = false)
    ∧ (k.OnConnectAuthenticate ∉
          [k.OnConnect, k.OnDisconnect, k.OnSubscribed, k.OnUnsubscribed, k.OnPublished] →
        LogHook.Provides k k.OnConnectAuthenticate = false)
    ∧ (k.OnACLCheck ∉
          [k.OnConnect, k.OnDisconnect, k.OnSubscribed, k.OnUnsubscribed, k.OnPublished] →
        LogHook.Provides k k.OnACLCheck = false) := by
  have key : ∀ b : Byte, LogHook.Provides k b = true ↔
      b ∈ [k.OnConnect, k.OnDisconnect, k.OnSubscribed, k.OnUnsubscribed, k.OnPublished] :=
    fun b => bytesContains_singleton _ b
  refine ⟨?_, ?_, ?_, ?_⟩
  · intro b
    rw [key]
    simp
  · intro b hb
    rw [← Bool.not_eq_true, key]
    simpa using hb
  · intro h
    rw [← Bool.not_eq_true, key]
    exact h
  · intro h
    rw [← Bool.not_eq_true, key]
    exact h

/-- At the library's codes, the two authorization kinds are outside the five
notification kinds and `Provides` is false at both. -/
theorem LogHook_Provides_iff_witness :
    sampleKinds.OnConnectAuthenticate ∉
        [sampleKinds.OnConnect, sampleKinds.OnDisconnect, sampleKinds.OnSubscribed,
          sampleKinds.OnUnsubscribed, sampleKinds.OnPublished]
    ∧ sampleKinds.OnACLCheck ∉
        [sampleKinds.OnConnect, sampleKinds.OnDisconnect, sampleKinds.OnSubscribed,
          sampleKinds.OnUnsubscribed, sampleKinds.OnPublished]
    ∧ LogHook.Provides sampleKinds sampleKinds.OnConnectAuthenticate = false
    ∧ LogHook.Provides sampleKinds sampleKinds.OnACLCheck = false
    ∧ LogHook.Provides sampleKinds sampleKinds.OnPublished = true :=
  ⟨by decide, by decide,
    (LogHook_Provides_iff sampleKinds).2.2.1 (by decide),
    (LogHook_Provides_iff sampleKinds).2.2.2 (by decide),
    ((LogHook_Provides_iff sampleKinds).1 sampleKinds.OnPublished).2 (by decide)⟩

/-- C2: `LogHook.OnConnect` returns a nil error for every client and every
connect packet, whatever has been logged before. -/
theorem LogHook_OnConnect_returns_nil (sink : Sink) (cl : Client) (pk : Packet) :
    (LogHook.OnConnect sink cl pk).2 = none := by
  rfl

/-- C3 fails as stated: for a subscribe packet whose one filter holds a line
feed, the text `OnSubscribed` writes after its header has two filter lines, the
second of them made up by the filter string, not one. -/
theorem LogHook_OnSubscribed_newline_filter :
    lines ((LogHook.OnSubscribed [] ⟨lit "dev-1", ⟨lit "10.0.0.5:51000"⟩⟩
        ⟨⟨0⟩, [], [], [⟨lit "a\n  - Topic: forged (QoS: 2)", 0⟩]⟩ []).drop 1).flatten
      = [lit "  - Topic: a", lit "  - Topic: forged (QoS: 2) (QoS: 0)"]
    ∧ (lines ((LogHook.OnSubscribed [] ⟨lit "dev-1", ⟨lit "10.0.0.5:51000"⟩⟩
        ⟨⟨0⟩, [], [], [⟨lit "a\n  - Topic: forged (QoS: 2)", 0⟩]⟩ []).drop 1).flatten).length
      ≠ [(⟨lit "a\n  - Topic: forged (QoS: 2)", 0⟩ : Subscription)].length := by
  decide

/-- C3, as the code has it: for a subscribe packet whose filter strings hold no
line feed, `LogHook.OnSubscribed` keeps what was logged, writes its header, and
then writes exactly one line per filter of the packet, the line at index `i`
being `  - Topic: <Filter> (QoS: <Qos>)` rendered from the filter at index `i`;
for the filters `sensors/+` at QoS 0 and `alerts/#` at QoS 1 the filter lines
are `  - Topic: sensors/+ (QoS: 0)` then `  - Topic: alerts/# (QoS: 1)`. -/
theorem LogHook_OnSubscribed_filter_lines (sink : Sink) (cl : Client) (pk : Packet)
    (rc : List Byte) (hf : ∀ sub ∈ pk.Filters, newline ∉ sub.Filter) :
    (LogHook.OnSubscribed sink cl pk rc).take (sink.length + 1)
        = sink ++ [lit "[SUBSCRIBE] Client: " ++ cl.ID ++ lit " subscribed to topics\n"]
    ∧ (lines ((LogHook.OnSubscribed sink cl pk rc).drop (sink.length + 1)).flatten).length
        = pk.Filters.length
    ∧ (∀ i : Nat,
        (lines ((LogHook.OnSubscribed sink cl pk rc).drop (sink.length + 1)).flatten)[i]?
        = (pk.Filters[i]?).map (fun sub =>
            lit "  - Topic: " ++ sub.Filter ++ lit " (QoS: " ++ formatDecimal sub.Qos.val
              ++ lit ")"))
    ∧ lines ((LogHook.OnSubscribed [] cl
          { pk with Filters := [⟨lit "sensors/+", 0⟩, ⟨lit "alerts/#", 1⟩] } rc).drop 1).flatten
        = [lit "  - Topic: sensors/+ (QoS: 0)", lit "  - Topic: alerts/# (QoS: 1)"] := by
  have hdrop : ∀ (l : Sink) (a : GoString) (m : Sink),
      (l ++ a :: m).drop (l.length + 1) = m := by
    intro l a m
    have h : l ++ a :: m = (l ++ [a]) ++ m := by simp
    rw [h, List.drop_left' (by simp)]
  have htake : ∀ (l : Sink) (a : GoString) (m : Sink),
      (l ++ a :: m).take (l.length + 1) = l ++ [a] := by
    intro l a m
    have h : l ++ a :: m = (l ++ [a]) ++ m := by simp
    rw [h, List.take_left' (by simp)]
  have hrender : ∀ sub ∈ pk.Filters, newline ∉
      lit "  - Topic: " ++ sub.Filter ++ lit " (QoS: " ++ formatDecimal sub.Qos.val
        ++ lit ")" := by
    intro sub hsub
    exact no_newline_append (no_newline_append (no_newline_append
      (no_newline_append (by decide) (hf sub hsub)) (by decide))
      (formatDecimal_no_newline _)) (by decide)
  have hlines : lines ((LogHook.OnSubscribed sink cl pk rc).drop (sink.length + 1)).flatten
      = pk.Filters.map (fun sub =>
          lit "  - Topic: " ++ sub.Filter ++ lit " (QoS: " ++ formatDecimal sub.Qos.val
            ++ lit ")") := by
    rw [OnSubscribed_eq, hdrop]
    exact lines_flatten_map _ pk.Filters hrender
  refine ⟨?_, ?_, ?_, ?_⟩
  · rw [OnSubscribed_eq, htake, List.append_assoc (lit "[SUBSCRIBE] Client: " ++ cl.ID)]
    rfl
  · rw [hlines, List.length_map]
  · intro i
    rw [hlines, List.getElem?_map]
  · rw [OnSubscribed_eq]
    simp only [List.nil_append, List.drop_succ_cons, List.drop_zero]
    decide

/-- Two filters without line feeds: the hypothesis holds and there are two
filter lines. -/
theorem LogHook_OnSubscribed_filter_lines_witness :
    (∀ sub ∈ [(⟨lit "sensors/+", 0⟩ : Subscription), ⟨lit "alerts/#", 1⟩],
        newline ∉ sub.Filter)
    ∧ (lines ((LogHook.OnSubscribed [] ⟨lit "dev-1", ⟨lit "10.0.0.5:51000"⟩⟩
          ⟨⟨0⟩, [], [], [⟨lit "sensors/+", 0⟩, ⟨lit "alerts/#", 1⟩]⟩ []).drop
            (([] : Sink).length + 1)).flatten).length
        = [(⟨lit "sensors/+", 0⟩ : Subscription), ⟨lit "alerts/#", 1⟩].length :=
  ⟨by decide,
    (LogHook_OnSubscribed_filter_lines [] ⟨lit "dev-1", ⟨lit "10.0.0.5:51000"⟩⟩
      ⟨⟨0⟩, [], [], [⟨lit "sensors/+", 0⟩, ⟨lit "alerts/#", 1⟩]⟩ [] (by decide)).2.1⟩

/-- C4 fails as stated: for a client identifier that holds a line feed the text
`OnConnect` writes has two lines, and neither of them contains the identifier. -/
theorem LogHook_OnConnect_newline_id :
    lines (written [] (LogHook.OnConnect [] ⟨lit "line1\nline2", ⟨lit "10.0.0.5:51000"⟩⟩
        ⟨⟨0⟩, [], [], []⟩).1)
      = [lit "[CONNECT] Client: line1", lit "line2 connected from 10.0.0.5:51000"]
    ∧ ∀ line ∈ lines (written [] (LogHook.OnConnect []
          ⟨lit "line1\nline2", ⟨lit "10.0.0.5:51000"⟩⟩ ⟨⟨0⟩, [], [], []⟩).1),
        ¬ lit "line1\nline2" <:+: line := by
  decide

/-- C4, as the code has it: for a client whose identifier and remote endpoint
hold no line feed, `LogHook.OnConnect` keeps what was logged and writes exactly
one line, `[CONNECT] Client: <id> connected from <r>`, which contains both the
identifier and the remote endpoint; for `dev-1` and `10.0.0.5:51000` the single
line is `[CONNECT] Client: dev-1 connected from 10.0.0.5:51000`. -/
theorem LogHook_OnConnect_one_line (sink : Sink) (cl : Client) (pk : Packet)
    (hid : newline ∉ cl.ID) (hr : newline ∉ cl.Net.Remote) :
    sink <+: (LogHook.OnConnect sink cl pk).1
    ∧ lines (written sink (LogHook.OnConnect sink cl pk).1)
        = [lit "[CONNECT] Client: " ++ cl.ID ++ lit " connected from " ++ cl.Net.Remote]
    ∧ (∀ line ∈ lines (written sink (LogHook.OnConnect sink cl pk).1),
        cl.ID <:+: line ∧ cl.Net.Remote <:+: line)
    ∧ lines (written [] (LogHook.OnConnect [] ⟨lit "dev-1", ⟨lit "10.0.0.5:51000"⟩⟩ pk).1)
        = [lit "[CONNECT] Client: dev-1 connected from 10.0.0.5:51000"] := by
  have h : ∀ (sink : Sink) (cl : Client), (LogHook.OnConnect sink cl pk).1
      = sink ++ [(lit "[CONNECT] Client: " ++ cl.ID ++ lit " connected from " ++ cl.Net.Remote)
          ++ [newline]] :=
    fun sink cl => logPrintf_connect sink cl.ID cl.Net.Remote
  have hline : newline ∉
      lit "[CONNECT] Client: " ++ cl.ID ++ lit " connected from " ++ cl.Net.Remote :=
    no_newline_append (no_newline_append (no_newline_append (by decide) hid) (by decide)) hr
  have hlines : lines (written sink (LogHook.OnConnect sink cl pk).1)
      = [lit "[CONNECT] Client: " ++ cl.ID ++ lit " connected from " ++ cl.Net.Remote] := by
    rw [h, written_append]
    simp only [List.flatten_cons, List.flatten_nil, List.append_nil]
    rw [lines_line _ _ hline]
    rfl
  refine ⟨?_, hlines, ?_, ?_⟩
  · rw [h]
    exact List.prefix_append _ _
  · intro line hmem
    rw [hlines, List.mem_singleton] at hmem
    subst hmem
    constructor
    · exact ⟨lit "[CONNECT] Client: ", lit " connected from " ++ cl.Net.Remote, by simp⟩
    · exact ⟨lit "[CONNECT] Client: " ++ cl.ID ++ lit " connected from ", [], by simp⟩
  · rw [h]
    decide

/-- The client `dev-1` at `10.0.0.5:51000`: neither string holds a line feed,
and the one line written contains both. -/
theorem LogHook_OnConnect_one_line_witness :
    newline ∉ lit "dev-1" ∧ newline ∉ lit "10.0.0.5:51000"
    ∧ lines (written [] (LogHook.OnConnect [] ⟨lit "dev-1", ⟨lit "10.0.0.5:51000"⟩⟩
        ⟨⟨0⟩, [], [], []⟩).1)
      = [lit "[CONNECT] Client: dev-1 connected from 10.0.0.5:51000"] :=
  ⟨by decide, by decide,
    (LogHook_OnConnect_one_line [] ⟨lit "dev-1", ⟨lit "10.0.0.5:51000"⟩⟩
      ⟨⟨0⟩, [], [], []⟩ (by decide) (by decide)).2.2.2⟩

/-- C5 fails as stated: for a subscribe packet with the single filter `a/b`,
`OnSubscribed` writes two lines for the one event, not one. -/
theorem LogHook_OnSubscribed_two_lines :
    lines (written [] (LogHook.OnSubscribed [] ⟨lit "dev-1", ⟨lit "10.0.0.5:51000"⟩⟩
        ⟨⟨0⟩, [], [], [⟨lit "a/b", 0⟩]⟩ []))
      = [lit "[SUBSCRIBE] Client: dev-1 subscribed to topics", lit "  - Topic: a/b (QoS: 0)"]
    ∧ (lines (written [] (LogHook.OnSubscribed [] ⟨lit "dev-1", ⟨lit "10.0.0.5:51000"⟩⟩
        ⟨⟨0⟩, [], [], [⟨lit "a/b", 0⟩]⟩ []))).length ≠ 1 := by
  decide

/-- C5, as the code has it: for a client and a packet whose identifier, remote
endpoint, topic name, payload and filter strings hold no line feed, every
callback keeps what was logged before; `OnConnect`, `OnDisconnect` and
`OnPublished` each write exactly one line per event, and `OnSubscribed` and
`OnUnsubscribed` write one header line followed by one line per filter of the
packet, in the order of the filters. -/
theorem LogHook_lines_per_event (sink : Sink) (cl : Client) (pk : Packet)
    (err : Option GoError) (expire : Bool) (rc : List Byte)
    (hid : newline ∉ cl.ID) (hr : newline ∉ cl.Net.Remote)
    (ht : newline ∉ pk.TopicName) (hp : newline ∉ pk.Payload)
    (hf : ∀ sub ∈ pk.Filters, newline ∉ sub.Filter) :
    (sink <+: (LogHook.OnConnect sink cl pk).1
      ∧ lines (written sink (LogHook.OnConnect sink cl pk).1)
        = [lit "[CONNECT] Client: " ++ cl.ID ++ lit " connected from " ++ cl.Net.Remote])
    ∧ (sink <+: LogHook.OnDisconnect sink cl err expire
      ∧ lines (written sink (LogHook.OnDisconnect sink cl err expire))
        = [lit "[DISCONNECT] Client: " ++ cl.ID ++ lit " disconnected"])
    ∧ (sink <+: LogHook.OnPublished sink cl pk
      ∧ lines (written sink (LogHook.OnPublished sink cl pk))
        = [lit "[PUBLISH] Client: " ++ cl.ID ++ lit " | Topic: " ++ pk.TopicName
            ++ lit " | Payload: " ++ pk.Payload ++ lit " | QoS: "
            ++ formatDecimal pk.FixedHeader.Qos.val])
    ∧ (sink <+: LogHook.OnSubscribed sink cl pk rc
      ∧ lines (written sink (LogHook.OnSubscribed sink cl pk rc))
        = (lit "[SUBSCRIBE] Client: " ++ cl.ID ++ lit " subscribed to topics")
          :: pk.Filters.map (fun sub =>
              lit "  - Topic: " ++ sub.Filter ++ lit " (QoS: " ++ formatDecimal sub.Qos.val
                ++ lit ")")
      ∧ (lines (written sink (LogHook.OnSubscribed sink cl pk rc))).length
        = 1 + pk.Filters.length)
    ∧ (sink <+: LogHook.OnUnsubscribed sink cl pk
      ∧ lines (written sink (LogHook.OnUnsubscribed sink cl pk))
        = (lit "[UNSUBSCRIBE] Client: " ++ cl.ID ++ lit " unsubscribed from topics")
          :: pk.Filters.map (fun sub => lit "  - Topic: " ++ sub.Filter)
      ∧ (lines (written sink (LogHook.OnUnsubscribed sink cl pk))).length
        = 1 + pk.Filters.length) := by
  have one : ∀ p : GoString, newline ∉ p → lines ([p ++ [newline]] : Sink).flatten = [p] := by
    intro p hp
    simp only [List.flatten_cons, List.flatten_nil, List.append_nil]
    rw [lines_line _ _ hp]
    rfl
  have many : ∀ (p : GoString) (g : Subscription → GoString), newline ∉ p →
      (∀ sub ∈ pk.Filters, newline ∉ g sub) →
      lines (((p ++ [newline]) :: pk.Filters.map (fun sub => g sub ++ [newline])).flatten)
        = p :: pk.Filters.map g := by
    intro p g hp hg
    simp only [List.flatten_cons, List.append_assoc, List.singleton_append]
    rw [lines_line _ _ hp, lines_flatten_map g pk.Filters hg]
  have hsub : lines (written sink (LogHook.OnSubscribed sink cl pk rc))
      = (lit "[SUBSCRIBE] Client: " ++ cl.ID ++ lit " subscribed to topics")
        :: pk.Filters.map (fun sub =>
            lit "  - Topic: " ++ sub.Filter ++ lit " (QoS: " ++ formatDecimal sub.Qos.val
              ++ lit ")") := by
    rw [OnSubscribed_eq, written_append]
    exact many _ _ (no_newline_append (no_newline_append (by decide) hid) (by decide))
      (fun sub hsub => no_newline_append (no_newline_append (no_newline_append
        (no_newline_append (by decide) (hf sub hsub)) (by decide))
        (formatDecimal_no_newline _)) (by decide))
  have hunsub : lines (written sink (LogHook.OnUnsubscribed sink cl pk))
      = (lit "[UNSUBSCRIBE] Client: " ++ cl.ID ++ lit " unsubscribed from topics")
        :: pk.Filters.map (fun sub => lit "  - Topic: " ++ sub.Filter) := by
    rw [OnUnsubscribed_eq, written_append]
    exact many _ _ (no_newline_append (no_newline_append (by decide) hid) (by decide))
      (fun sub hsub => no_newline_append (by decide) (hf sub hsub))
  refine ⟨⟨?_, ?_⟩, ⟨?_, ?_⟩, ⟨?_, ?_⟩, ⟨?_, hsub, ?_⟩, ⟨?_, hunsub, ?_⟩⟩
  · show sink <+: logPrintf _ _ _
    rw [logPrintf_connect]
    exact List.prefix_append _ _
  · show lines (written sink (logPrintf _ _ _)) = _
    rw [logPrintf_connect, written_append]
    exact one _ (no_newline_append (no_newline_append (no_newline_append (by decide) hid)
      (by decide)) hr)
  · rw [LogHook.OnDisconnect, logPrintf_disconnect]
    exact List.prefix_append _ _
  · rw [LogHook.OnDisconnect, logPrintf_disconnect, written_append]
    exact one _ (no_newline_append (no_newline_append (by decide) hid) (by decide))
  · rw [LogHook.OnPublished, logPrintf_publish]
    exact List.prefix_append _ _
  · rw [LogHook.OnPublished, logPrintf_publish, written_append]
    exact one _ (no_newline_append (no_newline_append (no_newline_append (no_newline_append
      (no_newline_append (no_newline_append (no_newline_append (by decide) hid) (by decide)) ht)
      (by decide)) hp) (by decide)) (formatDecimal_no_newline _))
  · rw [OnSubscribed_eq]
    exact List.prefix_append _ _
  · rw [hsub]
    simp
    omega
  · rw [OnUnsubscribed_eq]
    exact List.prefix_append _ _
  · rw [hunsub]
    simp
    omega

/-- A publish and a subscribe event without line feeds: one line for the
publish, a header and two filter lines for the subscribe. -/
theorem LogHook_lines_per_event_witness :
    (newline ∉ lit "dev-1" ∧ newline ∉ lit "10.0.0.5:51000" ∧ newline ∉ lit "sensors/t"
      ∧ newline ∉ lit "21.5"
      ∧ ∀ sub ∈ [(⟨lit "sensors/+", 0⟩ : Subscription), ⟨lit "alerts/#", 1⟩],
          newline ∉ sub.Filter)
    ∧ (lines (written [] (LogHook.OnPublished [] ⟨lit "dev-1", ⟨lit "10.0.0.5:51000"⟩⟩
        ⟨⟨1⟩, lit "sensors/t", lit "21.5", [⟨lit "sensors/+", 0⟩, ⟨lit "alerts/#", 1⟩]⟩))).length
      = 1
    ∧ (lines (written [] (LogHook.OnSubscribed [] ⟨lit "dev-1", ⟨lit "10.0.0.5:51000"⟩⟩
        ⟨⟨1⟩, lit "sensors/t", lit "21.5", [⟨lit "sensors/+", 0⟩, ⟨lit "alerts/#", 1⟩]⟩
        []))).length = 3 :=
  ⟨by decide,
    congrArg List.length (LogHook_lines_per_event [] ⟨lit "dev-1", ⟨lit "10.0.0.5:51000"⟩⟩
      ⟨⟨1⟩, lit "sensors/t", lit "21.5", [⟨lit "sensors/+", 0⟩, ⟨lit "alerts/#", 1⟩]⟩
      none false [] (by decide) (by decide) (by decide) (by decide) (by decide)).2.2.1.2,
    (LogHook_lines_per_event [] ⟨lit "dev-1", ⟨lit "10.0.0.5:51000"⟩⟩
      ⟨⟨1⟩, lit "sensors/t", lit "21.5", [⟨lit "sensors/+", 0⟩, ⟨lit "alerts/#", 1⟩]⟩
      none false [] (by decide) (by decide) (by decide) (by decide) (by decide)).2.2.2.1.2.2⟩

/-- C10: the line `LogHook.OnDisconnect` writes is
`[DISCONNECT] Client: <id> disconnected` whatever the termination error and the
expire flag are: any two pairs of them give the same output, and so do any two
clients with the same identifier. -/
theorem LogHook_OnDisconnect_depends_on_id (sink : Sink) (cl : Client)
    (err1 err2 : Option GoError) (expire1 expire2 : Bool) (net : ClientConnection) :
    LogHook.OnDisconnect sink cl err1 expire1 = LogHook.OnDisconnect sink cl err2 expire2
    ∧ LogHook.OnDisconnect sink cl err1 expire1
        = LogHook.OnDisconnect sink { cl with Net := net } err2 expire2
    ∧ LogHook.OnDisconnect sink cl err1 expire1
        = sink ++ [lit "[DISCONNECT] Client: " ++ cl.ID ++ lit " disconnected\n"] := by
  refine ⟨rfl, rfl, ?_⟩
  rw [LogHook.OnDisconnect, logPrintf_disconnect,
    List.append_assoc (lit "[DISCONNECT] Client: " ++ cl.ID)]
  rfl

/-! ## `main`: lemmas on steps and runs -/

namespace main

theorem step_ended (s : State) (ev : Event) (h : ended s = true) :
    step s ev = none := by
  simp [step, h]

theorem run_ended (s s' : State) (evs : List Event) (h : ended s = true)
    (hrun : run s evs = some s') : evs = [] ∧ s' = s := by
  cases evs with
  | nil => simpa [run] using hrun.symm
  | cons ev evs => simp [run, step_ended s ev h] at hrun

theorem shape_init : Shape init := by
  simp [Shape, init]

theorem step_shape (s s' : State) (ev : Event) (hstep : step s ev = some s')
    (h : Shape s) : Shape s' := by
  unfold step at hstep
  split at hstep
  · simp at hstep
  · rename_i hend
    have hex : s.exitCode = none := by
      cases hx : s.exitCode with
      | none => rfl
      | some n => simp [ended, hx] at hend
    cases ev with
    | addHookReturns r =>
      cases hpc : s.pc <;> simp [stepMain, hpc] at hstep <;> subst hstep <;>
        simp [Shape, hpc] at h ⊢ <;> simp [h, registrations]
    | addListenerReturns r =>
      cases hpc : s.pc <;> simp [stepMain, hpc] at hstep
      simp [Shape, hpc, hex] at h
      cases r with
      | some e =>
        simp at hstep
        subst hstep
        simp [Shape, logFatal, hpc, h, registrations]
      | none =>
        simp at hstep
        subst hstep
        simp [Shape, h, registrations, serveCalls]
    | notifyInstalled =>
      cases hpc : s.pc <;> simp [stepMain, hpc] at hstep
      subst hstep
      simpa [Shape, hpc] using h
    | serveStarts =>
      cases hrt : s.routine <;> simp [stepRoutine, hrt] at hstep
      subst hstep
      cases hpc : s.pc <;> simp [Shape, hpc, hrt, serveCalls] at h ⊢ <;> simp [h]
    | serveReturns r =>
      cases hrt : s.routine <;> simp [stepRoutine, hrt] at hstep
      cases r with
      | some e =>
        simp at hstep
        subst hstep
        cases hpc : s.pc <;> simp [Shape, hpc, hrt, serveCalls, logFatal] at h ⊢ <;>
          simp [h]
      | none =>
        simp at hstep
        subst hstep
        cases hpc : s.pc <;> simp [Shape, hpc, hrt, serveCalls] at h ⊢ <;> simp [h]
    | signal sig =>
      cases hpc : s.pc <;> simp [stepSignal, hpc] at hstep
      · subst hstep
        simpa [Shape, hpc] using h
      · subst hstep
        simpa [Shape, hpc] using h
      · subst hstep
        simpa [Shape, hpc] using h
      · subst hstep
        simpa [Shape, hpc] using h
      · split at hstep
        · simp at hstep
          subst hstep
          simp [Shape, hpc] at h ⊢
          simp [h]
        · simp at hstep
          subst hstep
          simpa [Shape, hpc] using h
      · split at hstep
        · simp at hstep
          subst hstep
          exact h
        · simp at hstep
          subst hstep
          simpa [Shape, hpc] using h
      · subst hstep
        simpa [Shape, hpc] using h
    | closeReturns =>
      cases hpc : s.pc <;> simp [stepMain, hpc] at hstep
      subst hstep
      simpa [Shape, hpc] using h

theorem run_shape (s s' : State) (evs : List Event) (hrun : run s evs = some s')
    (h : Shape s) : Shape s' := by
  induction evs generalizing s with
  | nil =>
    simp [run] at hrun
    exact hrun ▸ h
  | cons ev evs ih =>
    simp only [run] at hrun
    cases hs : step s ev with
    | none => simp [hs] at hrun
    | some s1 =>
      simp [hs] at hrun
      exact ih s1 hrun (step_shape s s1 ev hs h)

theorem step_pastRegistration (s s' : State) (ev : Event) (hstep : step s ev = some s')
    (h : pastRegistration s) :
    pastRegistration s' ∧ ∀ r, ev ≠ Event.addListenerReturns r := by
  unfold step at hstep
  split at hstep
  · simp at hstep
  · cases ev with
    | addHookReturns r =>
      rcases h with h | h | h | h <;> simp [stepMain, h] at hstep
    | addListenerReturns r =>
      rcases h with h | h | h | h <;> simp [stepMain, h] at hstep
    | notifyInstalled =>
      rcases h with h | h | h | h <;> simp [stepMain, h] at hstep
      subst hstep
      exact ⟨by simp [pastRegistration], by simp⟩
    | serveStarts =>
      cases hrt : s.routine <;> simp [stepRoutine, hrt] at hstep
      subst hstep
      exact ⟨h, by simp⟩
    | serveReturns r =>
      cases hrt : s.routine <;> simp [stepRoutine, hrt] at hstep
      cases r with
      | some e =>
        simp at hstep
        subst hstep
        exact ⟨h, by simp⟩
      | none =>
        simp at hstep
        subst hstep
        exact ⟨h, by simp⟩
    | signal sig =>
      refine ⟨?_, by simp⟩
      rcases h with h | h | h | h <;> simp [stepSignal, h] at hstep
      · subst hstep
        simp [pastRegistration]
      · split at hstep <;> simp at hstep <;> subst hstep <;> simp [pastRegistration, h]
      · split at hstep <;> simp at hstep <;> subst hstep <;> simp [pastRegistration, h]
      · subst hstep
        simp [pastRegistration]
    | closeReturns =>
      rcases h with h | h | h | h <;> simp [stepMain, h] at hstep
      subst hstep
      exact ⟨by simp [pastRegistration], by simp⟩

theorem run_pastRegistration (s s' : State) (evs : List Event) (hrun : run s evs = some s')
    (h : pastRegistration s) : ∀ r, Event.addListenerReturns r ∉ evs := by
  induction evs generalizing s with
  | nil => simp
  | cons ev evs ih =>
    simp only [run] at hrun
    cases hs : step s ev with
    | none => simp [hs] at hrun
    | some s1 =>
      simp [hs] at hrun
      obtain ⟨h1, h2⟩ := step_pastRegistration s s1 ev hs h
      intro r hmem
      rcases List.mem_cons.mp hmem with hmem | hmem
      · exact h2 r hmem.symm
      · exact ih s1 hrun h1 r hmem

/-- A run from a state the process has ended in holds no further event. -/
theorem run_ended_mem (s s' : State) (evs : List Event) (ev : Event) (h : ended s = true)
    (hrun : run s evs = some s') : ev ∉ evs := by
  rw [(run_ended s s' evs h hrun).1]
  simp

/-- A run of `main` in which `AddListener` returns an error consists of the two
`AddHook` returns and that `AddListener` return, and nothing else. -/
theorem run_addListener_error (evs : List Event) (s : State) (e : GoError)
    (hrun : run init evs = some s) (hmem : Event.addListenerReturns (some e) ∈ evs) :
    ∃ r1 r2, evs = [Event.addHookReturns r1, Event.addHookReturns r2,
      Event.addListenerReturns (some e)] := by
  cases evs with
  | nil => simp at hmem
  | cons e1 t1 =>
    cases e1 <;> simp [run, step, stepMain, stepRoutine, stepSignal, ended, init] at hrun
    case signal sig =>
      simp at hmem
      exact absurd hmem (run_ended_mem _ s t1 _ (by simp [ended]) hrun)
    rename_i r1
    cases t1 with
    | nil => simp at hmem
    | cons e2 t2 =>
      cases e2 <;> simp [run, step, stepMain, stepRoutine, stepSignal, ended] at hrun
      case signal sig =>
        simp at hmem
        exact absurd hmem (run_ended_mem _ s t2 _ (by simp [ended]) hrun)
      rename_i r2
      cases t2 with
      | nil => simp at hmem
      | cons e3 t3 =>
        cases e3 <;> simp [run, step, stepMain, stepRoutine, stepSignal, ended] at hrun
        case signal sig =>
          simp at hmem
          exact absurd hmem (run_ended_mem _ s t3 _ (by simp [ended]) hrun)
        rename_i r3
        cases r3 with
        | some e' =>
          simp at hrun
          have h := run_ended _ s t3 (by simp [logFatal, ended]) hrun
          obtain ⟨h3, _⟩ := h
          subst h3
          simp at hmem
          subst hmem
          exact ⟨r1, r2, rfl⟩
        | none =>
          simp at hrun
          have h := run_pastRegistration _ s t3 hrun (by simp [pastRegistration])
          simp at hmem
          exact absurd hmem (h (some e))

theorem step_closing (s s' : State) (ev : Event) (hstep : step s ev = some s')
    (h : closing s') :
    (closing s ∧ s'.received = s.received)
      ∨ ∃ sig, ev = Event.signal sig ∧ s'.received = some sig ∧ subscribed sig = true := by
  unfold step at hstep
  split at hstep
  · simp at hstep
  · cases ev with
    | addHookReturns r =>
      cases hpc : s.pc <;> simp [stepMain, hpc] at hstep <;> subst hstep <;>
        simp [closing] at h <;> exact Or.inl ⟨Or.inr (Or.inr h), rfl⟩
    | addListenerReturns r =>
      cases hpc : s.pc <;> simp [stepMain, hpc] at hstep
      cases r with
      | some e =>
        simp at hstep
        subst hstep
        simp [closing, logFatal, hpc] at h
        exact Or.inl ⟨Or.inr (Or.inr h), rfl⟩
      | none =>
        simp at hstep
        subst hstep
        simp [closing] at h
        exact Or.inl ⟨Or.inr (Or.inr h), rfl⟩
    | notifyInstalled =>
      cases hpc : s.pc <;> simp [stepMain, hpc] at hstep
      subst hstep
      simp [closing] at h
      exact Or.inl ⟨Or.inr (Or.inr h), rfl⟩
    | serveStarts =>
      cases hrt : s.routine <;> simp [stepRoutine, hrt] at hstep
      subst hstep
      simp [closing] at h
      exact Or.inl ⟨h, rfl⟩
    | serveReturns r =>
      cases hrt : s.routine <;> simp [stepRoutine, hrt] at hstep
      cases r with
      | some e =>
        simp at hstep
        subst hstep
        exact Or.inl ⟨h, rfl⟩
      | none =>
        simp at hstep
        subst hstep
        exact Or.inl ⟨h, rfl⟩
    | signal sig =>
      cases hpc : s.pc <;> simp [stepSignal, hpc] at hstep
      case waitSignal =>
        split at hstep
        · rename_i hsub
          simp at hstep
          subst hstep
          exact Or.inr ⟨sig, rfl, rfl, hsub⟩
        · simp at hstep
          subst hstep
          refine Or.inl ⟨?_, rfl⟩
          simp only [closing] at h ⊢
          simpa [hpc] using h
      case inClose =>
        exact Or.inl ⟨Or.inl hpc, by
          split at hstep <;> simp at hstep <;> subst hstep <;> rfl⟩
      all_goals
        subst hstep
        refine Or.inl ⟨?_, rfl⟩
        simp only [closing] at h ⊢
        first
          | (simp [hpc]; done)
          | simpa [hpc] using h
    | closeReturns =>
      cases hpc : s.pc <;> simp [stepMain, hpc] at hstep
      subst hstep
      exact Or.inl ⟨Or.inl hpc, rfl⟩

theorem run_closing (s s' : State) (evs : List Event) (hrun : run s evs = some s')
    (h : closing s') :
    (closing s ∧ s'.received = s.received)
      ∨ ∃ sig, Event.signal sig ∈ evs ∧ s'.received = some sig ∧ subscribed sig = true := by
  induction evs generalizing s with
  | nil =>
    simp [run] at hrun
    subst hrun
    exact Or.inl ⟨h, rfl⟩
  | cons ev evs ih =>
    simp only [run] at hrun
    cases hs : step s ev with
    | none => simp [hs] at hrun
    | some s1 =>
      simp [hs] at hrun
      rcases ih s1 hrun with ⟨hc, hrec⟩ | ⟨sig, hmem, hrec, hsub⟩
      · rcases step_closing s s1 ev hs hc with ⟨hc0, hrec0⟩ | ⟨sig, hev, hrec0, hsub⟩
        · exact Or.inl ⟨hc0, hrec.trans hrec0⟩
        · exact Or.inr ⟨sig, by simp [hev], hrec.trans hrec0, hsub⟩
      · exact Or.inr ⟨sig, List.mem_cons_of_mem _ hmem, hrec, hsub⟩

/-- The calls are a prefix of the registration calls, or all of them followed by
at most one `Serve` and at most one `Close`, in either order. -/
theorem shape_calls (s : State) (h : Shape s) :
    s.calls <+: registrations
    ∨ ∃ rest, s.calls = registrations ++ rest
        ∧ (rest = [] ∨ rest = [CoreCall.Serve] ∨ rest = [CoreCall.Close]
          ∨ rest = [CoreCall.Serve, CoreCall.Close]
          ∨ rest = [CoreCall.Close, CoreCall.Serve]) := by
  cases hpc : s.pc <;> simp only [Shape, hpc] at h
  · exact Or.inl (by rw [h.1]; exact List.nil_prefix)
  · exact Or.inl (by rw [h.1]; exact List.take_prefix _ _)
  · rcases h.2 with ⟨hc, _⟩ | ⟨hc, _⟩
    · exact Or.inl (by rw [hc]; exact List.take_prefix _ _)
    · exact Or.inl (by rw [hc])
  · right
    refine ⟨serveCalls s.routine, h.2, ?_⟩
    cases s.routine <;> simp [serveCalls]
  · right
    refine ⟨serveCalls s.routine, h.2, ?_⟩
    cases s.routine <;> simp [serveCalls]
  · right
    rcases h.2 with hc | ⟨hc, _⟩
    · refine ⟨serveCalls s.routine ++ [CoreCall.Close], by simpa using hc, ?_⟩
      cases s.routine <;> simp [serveCalls]
    · exact ⟨_, hc, by simp⟩
  · right
    rcases h.2 with hc | ⟨hc, _⟩
    · refine ⟨serveCalls s.routine ++ [CoreCall.Close], by simpa using hc, ?_⟩
      cases s.routine <;> simp [serveCalls]
    · exact ⟨_, hc, by simp⟩

/-- Where `Serve` stands among the calls, the three registration calls stand
before it and only `Serve` and `Close` calls stand after it. -/
theorem shape_serve_split (s : State) (h : Shape s) (pre post : List CoreCall)
    (hsplit : s.calls = pre ++ CoreCall.Serve :: post) :
    registrations <+: pre ∧ ∀ c ∈ post, c = CoreCall.Serve ∨ c = CoreCall.Close := by
  have hmem : CoreCall.Serve ∈ s.calls := by simp [hsplit]
  have hlate : ∃ rest, s.calls = registrations ++ rest
      ∧ ∀ c ∈ rest, c = CoreCall.Serve ∨ c = CoreCall.Close := by
    rcases shape_calls s h with hp | ⟨rest, h1, h2⟩
    · have := hp.subset hmem
      simp [registrations] at this
    · refine ⟨rest, h1, ?_⟩
      rcases h2 with h2 | h2 | h2 | h2 | h2 <;> subst h2 <;> simp
  obtain ⟨rest, h1, h2⟩ := hlate
  rw [h1] at hsplit
  rcases List.append_eq_append_iff.mp hsplit with ⟨a', ha, hb⟩ | ⟨c', hc, hd⟩
  · refine ⟨⟨a', ha.symm⟩, ?_⟩
    intro c hcm
    exact h2 c (by simp [hb, hcm])
  · cases c' with
    | nil =>
      simp at hc hd
      refine ⟨⟨[], by simp [hc]⟩, ?_⟩
      intro c hcm
      exact h2 c (by simp [← hd, hcm])
    | cons x xs =>
      simp at hd
      have : CoreCall.Serve ∈ registrations := by
        rw [hc, ← hd.1]
        simp
      simp [registrations] at this

end main

/-! ## `main`: results -/

/-- C6 fails as stated: when the first `AddHook` call returns an error, `main`
does not exit; it goes on to register the listener and the goroutine calls
`Serve`, and the process is in the `Serving` state with no exit code. -/
theorem main_addHook_error_reaches_serving :
    main.run main.init
        [Event.addHookReturns (some (lit "hook already registered")),
          Event.addHookReturns none, Event.addListenerReturns none, Event.notifyInstalled,
          Event.serveStarts]
      = some
        { pc := MainPc.waitSignal, routine := RoutinePc.inServe,
          calls := [CoreCall.AddHook Hook.AllowHook, CoreCall.AddHook Hook.LogHook,
            CoreCall.AddListener { ID := lit "t1", Address := lit ":1883" }, CoreCall.Serve],
          sink := [lit "MQTT server started on :1883\n"], received := none, exitCode := none,
          killedBy := none }
    ∧ (main.run main.init
        [Event.addHookReturns (some (lit "hook already registered")),
          Event.addHookReturns none, Event.addListenerReturns none, Event.notifyInstalled,
          Event.serveStarts]).map main.lifecycle
      = some Lifecycle.Serving := by
  decide

/-- C6, as the code has it: the result of either `AddHook` call is discarded.
Whatever the two calls return, `main` runs on exactly as when both succeed: after
them it has logged nothing, has not exited and stands before `AddListener`, and
when `AddListener` then succeeds it reaches the `Serving` state. -/
theorem main_addHook_result_discarded (r1 r2 : Option GoError) (evs : List Event) :
    main.run main.init (Event.addHookReturns r1 :: Event.addHookReturns r2 :: evs)
      = main.run main.init (Event.addHookReturns none :: Event.addHookReturns none :: evs)
    ∧ main.run main.init [Event.addHookReturns r1, Event.addHookReturns r2]
      = some
        { pc := MainPc.addListener, routine := RoutinePc.notSpawned,
          calls := [CoreCall.AddHook Hook.AllowHook, CoreCall.AddHook Hook.LogHook],
          sink := [], received := none, exitCode := none, killedBy := none }
    ∧ (main.run main.init [Event.addHookReturns r1, Event.addHookReturns r2,
          Event.addListenerReturns none]).map main.lifecycle
      = some Lifecycle.Serving := by
  refine ⟨?_, ?_, ?_⟩
  · simp [main.run, main.step, main.stepMain, main.init, main.ended]
  · simp [main.run, main.step, main.stepMain, main.init, main.ended]
  · simp [main.run, main.step, main.stepMain, main.init, main.ended, main.lifecycle]

/-- C7: in every run of `main` in which `AddListener` returns an error, the
error is logged and the process has exited with code 1, and at no point of the
run has `main` waited for a signal, has the goroutine been spawned, or has
`Serve` or `Close` been called. -/
theorem main_addListener_error_is_fatal (evs : List Event) (s : State) (e : GoError)
    (hrun : main.run main.init evs = some s)
    (herr : Event.addListenerReturns (some e) ∈ evs) :
    s.exitCode = some 1
    ∧ main.lifecycle s = Lifecycle.Stopped
    ∧ s.sink = logOutput [] e
    ∧ ∀ (pre post : List Event) (s' : State), evs = pre ++ post →
        main.run main.init pre = some s' →
        s'.pc ≠ MainPc.waitSignal ∧ s'.routine = RoutinePc.notSpawned
        ∧ CoreCall.Serve ∉ s'.calls ∧ CoreCall.Close ∉ s'.calls
        ∧ s'.received = none
        ∧ main.lifecycle s' ≠ Lifecycle.Serving
        ∧ main.lifecycle s' ≠ Lifecycle.ShuttingDown := by
  obtain ⟨r1, r2, hevs⟩ := main.run_addListener_error evs s e hrun herr
  subst hevs
  simp [main.run, main.step, main.stepMain, main.init, main.logFatal, main.ended] at hrun
  subst hrun
  refine ⟨rfl, rfl, rfl, ?_⟩
  intro pre post s' hsplit hpre
  rcases pre with _ | ⟨p1, _ | ⟨p2, _ | ⟨p3, _ | ⟨p4, t⟩⟩⟩⟩
  · simp [main.run] at hpre
    subst hpre
    simp [main.init, main.lifecycle, main.ended]
  · simp at hsplit
    obtain ⟨h1, _⟩ := hsplit
    subst h1
    simp [main.run, main.step, main.stepMain, main.init, main.ended] at hpre
    subst hpre
    simp [main.lifecycle, main.ended]
  · simp at hsplit
    obtain ⟨h1, h2, _⟩ := hsplit
    subst h1 h2
    simp [main.run, main.step, main.stepMain, main.init, main.ended] at hpre
    subst hpre
    simp [main.lifecycle, main.ended]
  · simp at hsplit
    obtain ⟨h1, h2, h3, _⟩ := hsplit
    subst h1 h2 h3
    simp [main.run, main.step, main.stepMain, main.init, main.logFatal, main.ended] at hpre
    subst hpre
    simp [main.lifecycle, main.ended]
  · have hlen := congrArg List.length hsplit
    simp at hlen

/-- A run in which the listener cannot be bound: the error is logged and the run
ends in `Stopped` with exit code 1. -/
theorem main_addListener_error_is_fatal_witness :
    main.run main.init main.bindErrorRun = some main.bindErrorState
    ∧ Event.addListenerReturns (some (lit "listen tcp :1883: bind: address already in use"))
        ∈ main.bindErrorRun
    ∧ main.bindErrorState.exitCode = some 1
    ∧ main.lifecycle main.bindErrorState = Lifecycle.Stopped :=
  ⟨by decide, by decide,
    (main_addListener_error_is_fatal main.bindErrorRun main.bindErrorState
      (lit "listen tcp :1883: bind: address already in use") (by decide) (by decide)).1,
    (main_addListener_error_is_fatal main.bindErrorRun main.bindErrorState
      (lit "listen tcp :1883: bind: address already in use") (by decide) (by decide)).2.1⟩

/-- C8 fails as stated: with the process in the `Serving` state and no signal
delivered, `Serve` returning an error makes the goroutine call `log.Fatal`, and
the process leaves `Serving` for `Stopped` with exit code 1. -/
theorem main_serve_error_leaves_serving :
    (main.run main.init
        [Event.addHookReturns none, Event.addHookReturns none, Event.addListenerReturns none,
          Event.notifyInstalled, Event.serveStarts]).map
        (fun s => (main.lifecycle s, s.received))
      = some (Lifecycle.Serving, none)
    ∧ main.run main.init
        [Event.addHookReturns none, Event.addHookReturns none, Event.addListenerReturns none,
          Event.notifyInstalled, Event.serveStarts,
          Event.serveReturns (some (lit "listen tcp :1883: bind: address already in use"))]
      = some
        { pc := MainPc.waitSignal, routine := RoutinePc.inServe,
          calls := main.registrations ++ [CoreCall.Serve],
          sink := [lit "MQTT server started on :1883\n",
            lit "listen tcp :1883: bind: address already in use\n"],
          received := none, exitCode := some 1, killedBy := none }
    ∧ (main.run main.init
        [Event.addHookReturns none, Event.addHookReturns none, Event.addListenerReturns none,
          Event.notifyInstalled, Event.serveStarts,
          Event.serveReturns (some (lit "listen tcp :1883: bind: address already in use"))]).map
        main.lifecycle
      = some Lifecycle.Stopped := by
  decide

/-- C8, as the code has it: in every run of `main`, the state is `ShuttingDown`
or `Close` has been called only if a termination signal `main` subscribes to
(interrupt or SIGTERM) was delivered earlier in the run and received by `main`;
and a step that leaves the `Serving` state is one of three: the receipt of such
a signal while `main` is blocked on the channel, which leads to `ShuttingDown`
with `Close` called; `Serve` returning an error, which ends the process with
exit code 1 without `Close` being called; or the delivery of a signal that
`main` does not subscribe to, or of any signal before `signal.Notify` has run,
which ends the process without `Close` being called. -/
theorem main_close_only_after_signal :
    (∀ (evs : List Event) (s : State), main.run main.init evs = some s →
        (main.lifecycle s = Lifecycle.ShuttingDown ∨ CoreCall.Close ∈ s.calls) →
        ∃ sig, Event.signal sig ∈ evs ∧ s.received = some sig
          ∧ (sig = Signal.Interrupt ∨ sig = Signal.SIGTERM))
    ∧ (∀ (s s' : State) (ev : Event), main.lifecycle s = Lifecycle.Serving →
        main.step s ev = some s' → main.lifecycle s' ≠ Lifecycle.Serving →
        (∃ sig, ev = Event.signal sig ∧ (sig = Signal.Interrupt ∨ sig = Signal.SIGTERM)
            ∧ s.pc = MainPc.waitSignal
            ∧ main.lifecycle s' = Lifecycle.ShuttingDown
            ∧ s'.received = some sig
            ∧ s'.calls = s.calls ++ [CoreCall.Close])
        ∨ (∃ e, ev = Event.serveReturns (some e) ∧ main.lifecycle s' = Lifecycle.Stopped
            ∧ s'.exitCode = some 1 ∧ s'.calls = s.calls)
        ∨ (∃ sig, ev = Event.signal sig
            ∧ ((sig ≠ Signal.Interrupt ∧ sig ≠ Signal.SIGTERM) ∨ s.pc = MainPc.installNotify)
            ∧ main.lifecycle s' = Lifecycle.Stopped
            ∧ s'.killedBy = some sig ∧ s'.calls = s.calls)) := by
  have hsubscribed : ∀ sig, main.subscribed sig = true →
      sig = Signal.Interrupt ∨ sig = Signal.SIGTERM := by
    intro sig h
    cases sig <;> simp [main.subscribed] at h ⊢
  have hunsubscribed : ∀ sig, ¬ main.subscribed sig = true →
      sig ≠ Signal.Interrupt ∧ sig ≠ Signal.SIGTERM := by
    intro sig h
    cases sig <;> simp [main.subscribed] at h ⊢
  constructor
  · intro evs s hrun h
    have hclosing : main.closing s := by
      rcases h with h | h
      · left
        unfold main.lifecycle at h
        split at h
        · simp at h
        · cases hpc : s.pc <;> simp [hpc] at h
          rfl
      · exact Or.inr (Or.inr h)
    rcases main.run_closing main.init s evs hrun hclosing with
      ⟨hc, _⟩ | ⟨sig, hmem, hrec, hsub⟩
    · simp [main.closing, main.init] at hc
    · exact ⟨sig, hmem, hrec, hsubscribed sig hsub⟩
  · intro s s' ev hserving hstep hleft
    have hs : main.ended s = false
        ∧ (s.pc = MainPc.installNotify ∨ s.pc = MainPc.waitSignal) := by
      unfold main.lifecycle at hserving
      split at hserving
      · simp at hserving
      · rename_i hex
        cases hpc : s.pc <;> simp [hpc] at hserving
        · exact ⟨by simpa using hex, Or.inl rfl⟩
        · exact ⟨by simpa using hex, Or.inr rfl⟩
    obtain ⟨hex, hpc⟩ := hs
    have hex' : s.exitCode = none ∧ s.killedBy = none := by
      simpa [main.ended] using hex
    cases ev with
    | addHookReturns r =>
      rcases hpc with hpc | hpc <;> simp [main.step, main.stepMain, hex, hpc] at hstep
    | addListenerReturns r =>
      rcases hpc with hpc | hpc <;> simp [main.step, main.stepMain, hex, hpc] at hstep
    | closeReturns =>
      rcases hpc with hpc | hpc <;> simp [main.step, main.stepMain, hex, hpc] at hstep
    | notifyInstalled =>
      rcases hpc with hpc | hpc <;> simp [main.step, main.stepMain, hex, hpc] at hstep
      subst hstep
      simp [main.lifecycle, main.ended, hex'] at hleft
    | signal sig =>
      rcases hpc with hpc | hpc
      · simp [main.step, main.stepSignal, hex, hpc] at hstep
        subst hstep
        exact Or.inr (Or.inr ⟨sig, rfl, Or.inr hpc, by simp [main.lifecycle, main.ended],
          rfl, rfl⟩)
      · simp [main.step, main.stepSignal, hex, hpc] at hstep
        split at hstep
        · rename_i hsub
          simp at hstep
          subst hstep
          exact Or.inl ⟨sig, rfl, hsubscribed sig hsub, hpc,
            by simp [main.lifecycle, main.ended, hex'], rfl, rfl⟩
        · rename_i hsub
          simp at hstep
          subst hstep
          exact Or.inr (Or.inr ⟨sig, rfl, Or.inl (hunsubscribed sig hsub),
            by simp [main.lifecycle, main.ended], rfl, rfl⟩)
    | serveStarts =>
      cases hrt : s.routine <;> simp [main.step, main.stepRoutine, hex, hrt] at hstep
      subst hstep
      rcases hpc with hpc | hpc <;> simp [main.lifecycle, main.ended, hex', hpc] at hleft
    | serveReturns r =>
      cases hrt : s.routine <;> simp [main.step, main.stepRoutine, hex, hrt] at hstep
      cases r with
      | none =>
        simp at hstep
        subst hstep
        rcases hpc with hpc | hpc <;> simp [main.lifecycle, main.ended, hex', hpc] at hleft
      | some e =>
        simp at hstep
        subst hstep
        exact Or.inr (Or.inl ⟨e, rfl, by simp [main.lifecycle, main.logFatal, main.ended],
          rfl, rfl⟩)

/-- A run to shutdown by SIGTERM, in which the signal precedes `Close`; and two
steps out of the `Serving` state: `Serve` returning an error, and the delivery
of SIGHUP, each of which ends in `Stopped` without `Close`. -/
theorem main_close_only_after_signal_witness :
    (main.run main.init main.sigtermRun = some main.sigtermState
      ∧ main.lifecycle main.sigtermState = Lifecycle.ShuttingDown
      ∧ ∃ sig, Event.signal sig ∈ main.sigtermRun
          ∧ main.sigtermState.received = some sig
          ∧ (sig = Signal.Interrupt ∨ sig = Signal.SIGTERM))
    ∧ (main.lifecycle main.servingState = Lifecycle.Serving
      ∧ main.step main.servingState
          (Event.serveReturns (some (lit "accept tcp: use of closed network connection")))
        = some main.serveFailedState
      ∧ main.lifecycle main.serveFailedState = Lifecycle.Stopped
      ∧ main.serveFailedState.calls = main.servingState.calls)
    ∧ (main.step main.servingState (Event.signal Signal.SIGHUP) = some main.hangupState
      ∧ main.lifecycle main.hangupState = Lifecycle.Stopped
      ∧ main.hangupState.calls = main.servingState.calls
      ∧ ((∃ sig, Event.signal Signal.SIGHUP = Event.signal sig
            ∧ (sig = Signal.Interrupt ∨ sig = Signal.SIGTERM)
            ∧ main.servingState.pc = MainPc.waitSignal
            ∧ main.lifecycle main.hangupState = Lifecycle.ShuttingDown
            ∧ main.hangupState.received = some sig
            ∧ main.hangupState.calls = main.servingState.calls ++ [CoreCall.Close])
        ∨ (∃ e, Event.signal Signal.SIGHUP = Event.serveReturns (some e)
            ∧ main.lifecycle main.hangupState = Lifecycle.Stopped
            ∧ main.hangupState.exitCode = some 1
            ∧ main.hangupState.calls = main.servingState.calls)
        ∨ (∃ sig, Event.signal Signal.SIGHUP = Event.signal sig
            ∧ ((sig ≠ Signal.Interrupt ∧ sig ≠ Signal.SIGTERM)
              ∨ main.servingState.pc = MainPc.installNotify)
            ∧ main.lifecycle main.hangupState = Lifecycle.Stopped
            ∧ main.hangupState.killedBy = some sig
            ∧ main.hangupState.calls = main.servingState.calls))) :=
  ⟨⟨by decide, by decide,
      main_close_only_after_signal.1 main.sigtermRun main.sigtermState (by decide)
        (Or.inl (by decide))⟩,
    ⟨by decide, by decide, by decide, by decide⟩,
    ⟨by decide, by decide, by decide,
      main_close_only_after_signal.2 main.servingState main.hangupState
        (Event.signal Signal.SIGHUP) (by decide) (by decide) (by decide)⟩⟩

/-- C9: in every run of `main` the calls on the broker core are
`AddHook(AllowHook)`, `AddHook(LogHook)`, `AddListener(t1, :1883)` in that order
and nothing else, as far as the run has got, followed once all three are made by
at most one `Serve` call and at most one `Close` call; the goroutine that calls
`Serve` exists only once all three are made, all three are made once the run
has left the `Initializing` state unless a signal ended it, and wherever `Serve`
stands among the calls, the three registration calls stand before it and no
`AddHook` or `AddListener` call stands after it. -/
theorem main_call_order (evs : List Event) (s : State)
    (hrun : main.run main.init evs = some s) :
    main.registrations
        = [CoreCall.AddHook Hook.AllowHook, CoreCall.AddHook Hook.LogHook,
            CoreCall.AddListener { ID := lit "t1", Address := lit ":1883" }]
    ∧ (s.calls <+: main.registrations
      ∨ ∃ rest, s.calls = main.registrations ++ rest
          ∧ (rest = [] ∨ rest = [CoreCall.Serve] ∨ rest = [CoreCall.Close]
            ∨ rest = [CoreCall.Serve, CoreCall.Close]
            ∨ rest = [CoreCall.Close, CoreCall.Serve]))
    ∧ (s.routine ≠ RoutinePc.notSpawned → main.registrations <+: s.calls)
    ∧ (s.killedBy = none → main.lifecycle s ≠ Lifecycle.Initializing →
        main.registrations <+: s.calls)
    ∧ (∀ pre post : List CoreCall, s.calls = pre ++ CoreCall.Serve :: post →
        main.registrations <+: pre
        ∧ ∀ c ∈ post, (∀ h, c ≠ CoreCall.AddHook h) ∧ (∀ cfg, c ≠ CoreCall.AddListener cfg)) := by
  have hshape : main.Shape s := main.run_shape main.init s evs hrun main.shape_init
  have hlate : main.pastRegistration s → main.registrations <+: s.calls := by
    intro hp
    rcases main.shape_calls s hshape with hpre | ⟨rest, h1, _⟩
    · rcases hp with hp | hp | hp | hp <;> simp only [main.Shape, hp] at hshape
      · exact ⟨main.serveCalls s.routine, hshape.2.symm⟩
      · exact ⟨main.serveCalls s.routine, hshape.2.symm⟩
      · rcases hshape.2 with hc | ⟨hc, _⟩
        · exact ⟨main.serveCalls s.routine ++ [CoreCall.Close], by simpa using hc.symm⟩
        · exact ⟨_, hc.symm⟩
      · rcases hshape.2 with hc | ⟨hc, _⟩
        · exact ⟨main.serveCalls s.routine ++ [CoreCall.Close], by simpa using hc.symm⟩
        · exact ⟨_, hc.symm⟩
    · exact ⟨rest, h1.symm⟩
  refine ⟨rfl, main.shape_calls s hshape, ?_, ?_, ?_⟩
  · intro hne
    apply hlate
    cases hpc : s.pc <;> simp only [main.Shape, hpc] at hshape
    · exact absurd hshape.2.1 hne
    · exact absurd hshape.2.1 hne
    · exact absurd hshape.1 hne
    · exact Or.inl hpc
    · exact Or.inr (Or.inl hpc)
    · exact Or.inr (Or.inr (Or.inl hpc))
    · exact Or.inr (Or.inr (Or.inr hpc))
  · intro hk hne
    cases hpc : s.pc
    · have h := hshape
      simp only [main.Shape, hpc] at h
      exact absurd (by simp [main.lifecycle, main.ended, h.2.2, hk, hpc]) hne
    · have h := hshape
      simp only [main.Shape, hpc] at h
      exact absurd (by simp [main.lifecycle, main.ended, h.2.2, hk, hpc]) hne
    · have h := hshape
      simp only [main.Shape, hpc] at h
      rcases h.2 with ⟨_, hex⟩ | ⟨hc, _⟩
      · exact absurd (by simp [main.lifecycle, main.ended, hex, hk, hpc]) hne
      · exact ⟨[], by simp [hc]⟩
    · exact hlate (Or.inl hpc)
    · exact hlate (Or.inr (Or.inl hpc))
    · exact hlate (Or.inr (Or.inr (Or.inl hpc)))
    · exact hlate (Or.inr (Or.inr (Or.inr hpc)))
  · intro pre post hsplit
    obtain ⟨h1, h2⟩ := main.shape_serve_split s hshape pre post hsplit
    refine ⟨h1, ?_⟩
    intro c hcm
    rcases h2 c hcm with h | h <;> subst h <;> simp

/-- A complete run of `main`: both hooks and the listener are registered, the
goroutine calls `Serve`, an interrupt arrives, `Close` is called and returns, and
the process exits with code 0; the calls are the three registrations, then
`Serve`, then `Close`. -/
theorem main_call_order_witness :
    main.run main.init main.completeRun = some main.completeState
    ∧ main.completeState.calls = main.registrations ++ [CoreCall.Serve, CoreCall.Close]
    ∧ (main.completeState.calls <+: main.registrations
      ∨ ∃ rest, main.completeState.calls = main.registrations ++ rest
          ∧ (rest = [] ∨ rest = [CoreCall.Serve] ∨ rest = [CoreCall.Close]
            ∨ rest = [CoreCall.Serve, CoreCall.Close]
            ∨ rest = [CoreCall.Close, CoreCall.Serve]))
    ∧ main.registrations <+: main.completeState.calls :=
  ⟨by decide, by decide,
    (main_call_order main.completeRun main.completeState (by decide)).2.1,
    (main_call_order main.completeRun main.completeState (by decide)).2.2.1 (by decide)⟩

end MqttGo
